import Mathlib

/-!
Shallow embedding of the status-derivation logic of
`.statuspage/fetch_status.py` (dbt-status-page).

The script fetches the latest run of each configured job, counts failed
tests in the `run_results.json` artifact, reduces the `sources.json`
freshness artifact to a verdict, maps everything to a color/reason pair,
builds one display row per job, and computes an overall color by severity.
The HTTP layer is impure and is modelled by passing the fetched values
(`Option`, with `none` for an absent artifact or a job without runs) as
arguments to the pure functions below.
-/

/-- Python string value that may be `None` (absent dict key or JSON null). -/
abbrev OptStr := Option String

/-- Python truthiness of an optional string: `None` and the empty string
are falsy, every other string is truthy. -/
def truthyS : OptStr → Bool
  | some s => s != ""
  | none => false

/-- Python `a or b` where `a` is an optional string and `b` a plain
string: returns `a`'s value when it is truthy, else `b`. -/
def pyOr (a : OptStr) (b : String) : String :=
  match a with
  | some s => if s = "" then b else s
  | none => b

/-- Rendering of an optional string inside a Python f-string:
`None` renders as the text "None". -/
def pyStrOS : OptStr → String
  | some s => s
  | none => "None"

/-- Rendering of an optional integer inside a Python f-string. -/
def pyStrOI : Option Int → String
  | some n => toString n
  | none => "None"

/-- A run record as used by `parse_status`: `run.get("status")` and
`run.get("is_complete")`. -/
structure Run where
  status : Option Int
  is_complete : Option Bool
  deriving Repr, DecidableEq

/-- One entry of the `run_results.json` artifact's `results` list:
the two fields `parse_status` reads. -/
structure TestResultEntry where
  resource_type : OptStr
  status : OptStr
  deriving Repr, DecidableEq

/-- Number of failed tests: entries of resource kind "test" with outcome
"fail"; an absent artifact defaults to an empty results list. -/
def failedTestCount (runResults : Option (List TestResultEntry)) : Nat :=
  ((runResults.getD []).filter
    (fun x => x.resource_type == some "test" && x.status == some "fail")).length

/-- One entry of the `sources.json` artifact (either shape): the fields
the freshness evaluation reads. -/
structure SourceEntry where
  status : OptStr
  name : OptStr
  source_name : OptStr
  unique_id : OptStr
  max_loaded_at_time_ago_in_words : OptStr
  deriving Repr, DecidableEq

/-- The `sources.json` artifact: presence of the legacy "sources" key and
of the current "results" key.  The legacy key is tested first. -/
structure SourcesJson where
  legacySources : Option (List SourceEntry)
  currentResults : Option (List SourceEntry)
  deriving Repr, DecidableEq

/-- ASCII lowercasing of a string, character by character: the embedding
of Python str.lower for the ASCII status strings involved here. -/
def lowerStr (s : String) : String :=
  ⟨s.data.map Char.toLower⟩

/-- Severity ranking used for the current freshness schema:
error 3, warn 2, pass 1, anything else 0. -/
def severityOf (s : String) : Nat :=
  if s = "error" then 3 else if s = "warn" then 2 else if s = "pass" then 1 else 0

/-- Lower-cased status key of a freshness result entry:
`(r.get("status") or "").lower()`. -/
def statusKey (r : SourceEntry) : String :=
  lowerStr (r.status.getD "")

/-- Severity of one freshness result entry. -/
def sevOf (r : SourceEntry) : Nat :=
  severityOf (statusKey r)

/-- Python `max(x :: xs, key = f)`: the first element with maximal key. -/
def pymaxBy {α : Type} (f : α → Nat) (x : α) (xs : List α) : α :=
  xs.foldl (fun a b => if f a < f b then b else a) x

/-- Legacy freshness schema: verdict "ok" when every source's status is
"pass", else "fail"; detail names the first non-passing source. -/
def legacyFreshness (ss : List SourceEntry) : String × String :=
  let verdict := if ss.all (fun s => s.status == some "pass") then "ok" else "fail"
  let failing := ss.filter (fun s => !(s.status == some "pass"))
  match failing with
  | [] => (verdict, "")
  | fs :: _ =>
    (verdict, pyOr fs.name (pyOr fs.source_name (pyOr fs.unique_id "source"))
      ++ " " ++ pyStrOS fs.status)

/-- Current freshness schema: keep entries with a truthy status, pick the
worst by severity (first occurrence wins ties), map its status to the
verdict and build the detail string. -/
def currentFreshness (rs : List SourceEntry) : String × String :=
  match rs.filter (fun r => truthyS r.status) with
  | [] => ("unknown", "")
  | r0 :: rest =>
    let worst := pymaxBy sevOf r0 rest
    let ws := statusKey worst
    let verdict :=
      if ws = "error" then "fail"
      else if ws = "warn" then "amber"
      else if ws = "pass" then "ok"
      else "unknown"
    let nm := pyOr worst.source_name (pyOr worst.name (pyOr worst.unique_id "source"))
    let label := if ws = "pass" then "fresh" else ws
    let d1 := if label != "" then nm ++ " " ++ label else nm
    let d2 :=
      if truthyS worst.max_loaded_at_time_ago_in_words then
        d1 ++ " (" ++ worst.max_loaded_at_time_ago_in_words.getD "" ++ ")"
      else d1
    (verdict, d2)

/-- Freshness evaluation on the fetched artifact: `none` models a non-200
artifact response (the script substitutes an empty dict, which has neither
key).  The legacy "sources" key takes precedence over "results". -/
def evaluateFreshness (art : Option SourcesJson) : String × String :=
  let sources := art.getD ⟨none, none⟩
  match sources.legacySources with
  | some ss => legacyFreshness ss
  | none =>
    match sources.currentResults with
    | some rs => currentFreshness rs
    | none => ("unknown", "")

/-- The five components returned by `parse_status`. -/
structure StatusResult where
  color : String
  reason : String
  failed_tests : Nat
  freshness : String
  freshness_detail : String
  deriving Repr, DecidableEq

/-- `parse_status(run)` with the two artifact fetches made explicit:
in-progress beats everything, then status 10 (success, possibly
downgraded), then status 20 (error), then the generic amber case. -/
def parse_status (run : Run) (runResults : Option (List TestResultEntry))
    (sourcesArt : Option SourcesJson) : StatusResult :=
  let in_progress := run.is_complete = some false
  let failed_tests := failedTestCount runResults
  let fr := evaluateFreshness sourcesArt
  let cr : String × String :=
    if in_progress then ("amber", "run in progress")
    else if run.status = some 10 then
      if failed_tests > 0 ∨ fr.1 = "fail" then
        ("amber", "success with issues: tests=" ++ toString failed_tests
          ++ ", freshness=" ++ fr.1)
      else ("green", "last run success")
    else if run.status = some 20 then ("red", "last run failed")
    else ("amber", "status " ++ pyStrOI run.status)
  { color := cr.1, reason := cr.2, failed_tests := failed_tests,
    freshness := fr.1, freshness_detail := fr.2 }

/-- Everything the aggregation loop reads from a fetched run besides what
`parse_status` consumes: id, embedded job name, timestamps, and the two
artifacts of the run. -/
structure RunData where
  id : Int
  run : Run
  job_name : OptStr
  started_at : OptStr
  finished_at : OptStr
  run_results : Option (List TestResultEntry)
  sources_art : Option SourcesJson
  deriving Repr, DecidableEq

/-- One display row of the status page, as appended to `rows`.
`failed_tests = none` models the literal "-" used when no run exists. -/
structure Row where
  job_id : String
  run_id : Option Int
  job_name : String
  color : String
  reason : String
  failed_tests : Option Nat
  freshness : String
  freshness_detail : String
  freshness_display : String
  started_at : OptStr
  finished_at : OptStr
  in_progress : Bool
  href : String
  deriving Repr, DecidableEq

/-- Body of the aggregation loop for one configured job id: the grey
"no runs" record when no run exists, else the record built from
`parse_status` of the latest run. -/
def buildRow (jobMap : String → OptStr) (acct : String) (jid : String)
    (rd : Option RunData) : Row :=
  match rd with
  | none =>
    { job_id := jid, run_id := none,
      job_name := (jobMap jid).getD jid,
      color := "grey", reason := "no runs",
      failed_tests := none,
      freshness := "unknown", freshness_detail := "",
      freshness_display := "unknown",
      started_at := none, finished_at := none, in_progress := false,
      href := "https://cloud.getdbt.com/#/accounts/" ++ acct ++ "/jobs/" ++ jid }
  | some rd =>
    let res := parse_status rd.run rd.run_results rd.sources_art
    { job_id := jid, run_id := some rd.id,
      job_name := pyOr (jobMap jid) (pyOr rd.job_name jid),
      color := res.color, reason := res.reason,
      failed_tests := some res.failed_tests,
      freshness := res.freshness, freshness_detail := res.freshness_detail,
      freshness_display :=
        if res.freshness_detail != "" then
          res.freshness ++ ": " ++ res.freshness_detail
        else res.freshness,
      started_at := rd.started_at, finished_at := rd.finished_at,
      in_progress := rd.run.is_complete = some false,
      href := "https://cloud.getdbt.com/#/accounts/" ++ acct ++ "/jobs/" ++ jid
        ++ "/runs/" ++ toString rd.id }

/-- The aggregation loop over all configured job ids, each paired with its
fetched latest run (or `none`). -/
def buildRows (jobMap : String → OptStr) (acct : String)
    (jobs : List (String × Option RunData)) : List Row :=
  jobs.map (fun p => buildRow jobMap acct p.1 p.2)

/-- Severity ranking of colors: red 3, amber 2, green 1, grey (and any
unknown color) 0. -/
def priorityOf (c : String) : Nat :=
  if c = "red" then 3 else if c = "amber" then 2 else if c = "green" then 1 else 0

/-- Overall color: the color of the first row of maximal severity, grey
for an empty row list. -/
def overallColor (rows : List Row) : String :=
  match rows with
  | [] => "grey"
  | r :: rest => (pymaxBy (fun x => priorityOf x.color) r rest).color

theorem pymaxBy_cons {α : Type} (f : α → Nat) (x y : α) (ys : List α) :
    pymaxBy f x (y :: ys) = pymaxBy f (if f x < f y then y else x) ys := rfl

theorem pymaxBy_spec {α : Type} (f : α → Nat) :
    ∀ (xs : List α) (x : α),
      ∃ pre suf, x :: xs = pre ++ pymaxBy f x xs :: suf ∧
        (∀ y ∈ pre, f y < f (pymaxBy f x xs)) ∧
        (∀ y ∈ x :: xs, f y ≤ f (pymaxBy f x xs)) := by
  intro xs
  induction xs with
  | nil =>
    intro x
    exact ⟨[], [], rfl, by simp, by simp [pymaxBy]⟩
  | cons y ys ih =>
    intro x
    rw [pymaxBy_cons]
    by_cases h : f x < f y
    · rw [if_pos h]
      obtain ⟨pre, suf, heq, hpre, hall⟩ := ih y
      refine ⟨x :: pre, suf, ?_, ?_, ?_⟩
      · rw [List.cons_append, ← heq]
      · intro z hz
        rcases List.mem_cons.mp hz with hz | hz
        · subst hz
          exact lt_of_lt_of_le h (hall y (List.mem_cons_self _ _))
        · exact hpre z hz
      · intro z hz
        rcases List.mem_cons.mp hz with hz | hz
        · subst hz
          exact le_of_lt (lt_of_lt_of_le h (hall y (List.mem_cons_self _ _)))
        · exact hall z hz
    · rw [if_neg h]
      obtain ⟨pre, suf, heq, hpre, hall⟩ := ih x
      cases pre with
      | nil =>
        simp only [List.nil_append] at heq
        injection heq with h1 h2
        refine ⟨[], y :: ys, ?_, by simp, ?_⟩
        · rw [List.nil_append, ← h1]
        · intro z hz
          rw [← h1]
          rcases List.mem_cons.mp hz with rfl | hz
          · exact le_refl _
          rcases List.mem_cons.mp hz with rfl | hz
          · exact le_of_not_lt h
          · have hz2 := hall z (List.mem_cons_of_mem _ hz)
            rwa [← h1] at hz2
      | cons p pre' =>
        rw [List.cons_append] at heq
        injection heq with h1 h2
        have hxm : f x < f (pymaxBy f x ys) := by
          have hp := hpre p (List.mem_cons_self p pre')
          rwa [← h1] at hp
        refine ⟨x :: y :: pre', suf, ?_, ?_, ?_⟩
        · simp only [List.cons_append]
          conv_lhs => rw [h2]
        · intro z hz
          rcases List.mem_cons.mp hz with rfl | hz
          · exact hxm
          rcases List.mem_cons.mp hz with rfl | hz
          · exact lt_of_le_of_lt (le_of_not_lt h) hxm
          · exact hpre z (List.mem_cons_of_mem p hz)
        · intro z hz
          rcases List.mem_cons.mp hz with rfl | hz
          · exact le_of_lt hxm
          rcases List.mem_cons.mp hz with rfl | hz
          · exact le_of_lt (lt_of_le_of_lt (le_of_not_lt h) hxm)
          · exact hall z (List.mem_cons_of_mem _ hz)

theorem append_ne_empty_left (s t : String) (h : s ≠ "") : s ++ t ≠ "" := by
  intro he
  apply h
  have hd : s.data ++ t.data = [] := by
    have hc := congrArg String.data he
    simpa [String.data_append] using hc
  have hs : s.data = [] := (List.append_eq_nil.mp hd).1
  cases s
  simp_all

/-- C1: for a complete run with status code 10, the result is green
"last run success", downgraded to amber with the exact issues reason
precisely when the failed-test count is positive or the freshness verdict
is "fail"; the failed-test count of an absent artifact is zero. -/
theorem c1_success_downgrade (ic : Option Bool) (rr : Option (List TestResultEntry))
    (sa : Option SourcesJson) (hc : ic ≠ some false) :
    (parse_status ⟨some 10, ic⟩ rr sa).failed_tests = failedTestCount rr ∧
    (parse_status ⟨some 10, ic⟩ rr sa).freshness = (evaluateFreshness sa).1 ∧
    failedTestCount none = 0 ∧
    (((parse_status ⟨some 10, ic⟩ rr sa).color = "amber" ∧
      (parse_status ⟨some 10, ic⟩ rr sa).reason =
        "success with issues: tests=" ++ toString (failedTestCount rr)
          ++ ", freshness=" ++ (evaluateFreshness sa).1) ↔
      (failedTestCount rr > 0 ∨ (evaluateFreshness sa).1 = "fail")) ∧
    (¬(failedTestCount rr > 0 ∨ (evaluateFreshness sa).1 = "fail") →
      (parse_status ⟨some 10, ic⟩ rr sa).color = "green" ∧
      (parse_status ⟨some 10, ic⟩ rr sa).reason = "last run success") := by
  have hic : ¬((⟨some 10, ic⟩ : Run).is_complete = some false) := hc
  refine ⟨?_, ?_, rfl, ?_, ?_⟩ <;>
    by_cases hcond : failedTestCount rr > 0 ∨ (evaluateFreshness sa).1 = "fail" <;>
      simp [parse_status, hic, hcond]

/-- C2: an in-progress run is amber "run in progress" no matter the
status code, and the failed-test count and freshness are still computed
and returned unchanged. -/
theorem c2_in_progress (run : Run) (rr : Option (List TestResultEntry))
    (sa : Option SourcesJson) (h : run.is_complete = some false) :
    parse_status run rr sa =
      ⟨"amber", "run in progress", failedTestCount rr,
        (evaluateFreshness sa).1, (evaluateFreshness sa).2⟩ := by
  simp [parse_status, h]

/-- C3: a complete run with status 20 is red "last run failed"; a complete
run whose status code is neither 10 nor 20 is amber with reason
"status c". -/
theorem c3_error_and_other (ic : Option Bool) (st : Option Int)
    (rr : Option (List TestResultEntry)) (sa : Option SourcesJson)
    (hc : ic ≠ some false) :
    (st = some 20 →
      (parse_status ⟨st, ic⟩ rr sa).color = "red" ∧
      (parse_status ⟨st, ic⟩ rr sa).reason = "last run failed") ∧
    (∀ c : Int, st = some c → c ≠ 10 → c ≠ 20 →
      (parse_status ⟨st, ic⟩ rr sa).color = "amber" ∧
      (parse_status ⟨st, ic⟩ rr sa).reason = "status " ++ toString c) := by
  have hic : ¬((⟨st, ic⟩ : Run).is_complete = some false) := hc
  constructor
  · intro h20
    subst h20
    simp [parse_status, hic]
  · intro c hc' h10 h20
    subst hc'
    simp [parse_status, hic, pyStrOI, h10, h20]

/-- C10: a run whose is_complete field is absent (or null) is treated as
complete, identically to an explicit is_complete = true; in particular a
status-10 run with absent artifacts comes out green "last run success". -/
theorem c10_absent_is_complete (st : Option Int)
    (rr : Option (List TestResultEntry)) (sa : Option SourcesJson) :
    parse_status ⟨st, none⟩ rr sa = parse_status ⟨st, some true⟩ rr sa ∧
    parse_status ⟨some 10, none⟩ none none =
      ⟨"green", "last run success", 0, "unknown", ""⟩ := by
  constructor
  · simp [parse_status]
  · decide

/-- Witness for C1: one failed test on a complete status-10 run forces the
amber downgrade with the exact reason string. -/
theorem c1_success_downgrade_witness :
    (parse_status ⟨some 10, some true⟩
        (some [⟨some "test", some "fail"⟩]) none).color = "amber" ∧
    (parse_status ⟨some 10, some true⟩
        (some [⟨some "test", some "fail"⟩]) none).reason =
      "success with issues: tests=1, freshness=unknown" := by
  have h := c1_success_downgrade (some true)
    (some [⟨some "test", some "fail"⟩]) none (by decide)
  have hd := h.2.2.2.1.mpr (Or.inl (by decide))
  refine ⟨hd.1, ?_⟩
  rw [hd.2]
  decide

/-- Witness for C2: an in-progress status-10 run with absent artifacts. -/
theorem c2_in_progress_witness :
    parse_status ⟨some 10, some false⟩ none none =
      ⟨"amber", "run in progress", 0, "unknown", ""⟩ := by
  have h := c2_in_progress ⟨some 10, some false⟩ none none rfl
  exact h.trans (by decide)

/-- Witness for C3: a status-20 run is red and a status-30 run is amber
with reason "status 30". -/
theorem c3_error_and_other_witness :
    (parse_status ⟨some 20, some true⟩ none none).color = "red" ∧
    (parse_status ⟨some 30, none⟩ none none).reason = "status 30" := by
  refine ⟨((c3_error_and_other (some true) (some 20) none none (by decide)).1 rfl).1, ?_⟩
  have h := (c3_error_and_other none (some 30) none none (by decide)).2
    30 rfl (by decide) (by decide)
  rw [h.2]
  decide

/-- C4: a job with no run yields the grey "no runs" record with absent
failed-test count and unknown freshness, and the records of the other
jobs in the loop are unaffected. -/
theorem c4_no_runs (jobMap : String → OptStr) (acct jid : String)
    (pre post : List (String × Option RunData)) :
    (buildRow jobMap acct jid none).color = "grey" ∧
    (buildRow jobMap acct jid none).reason = "no runs" ∧
    (buildRow jobMap acct jid none).failed_tests = none ∧
    (buildRow jobMap acct jid none).freshness = "unknown" ∧
    (buildRow jobMap acct jid none).freshness_detail = "" ∧
    buildRows jobMap acct (pre ++ (jid, none) :: post) =
      buildRows jobMap acct pre
        ++ buildRow jobMap acct jid none :: buildRows jobMap acct post := by
  refine ⟨rfl, rfl, rfl, rfl, rfl, ?_⟩
  simp [buildRows]

/-- C5: the overall color of an empty row list is grey, and for a
non-empty row list it is the color of a row of maximal severity under the
ranking red 3, amber 2, green 1, grey 0. -/
theorem c5_overall (r : Row) (rs : List Row) :
    overallColor [] = "grey" ∧
    ∃ w, w ∈ r :: rs ∧ overallColor (r :: rs) = w.color ∧
      ∀ x ∈ r :: rs, priorityOf x.color ≤ priorityOf w.color := by
  refine ⟨rfl, ?_⟩
  obtain ⟨pre, suf, heq, hpre, hall⟩ :=
    pymaxBy_spec (fun x => priorityOf x.color) rs r
  refine ⟨pymaxBy (fun x => priorityOf x.color) r rs, ?_, rfl, hall⟩
  rw [heq]
  exact List.mem_append_right _ (List.mem_cons_self _ _)

/-- C8: an absent or empty freshness artifact, and an artifact with
neither the legacy nor the current key, both yield verdict "unknown" with
empty detail. -/
theorem c8_unknown_freshness :
    evaluateFreshness none = ("unknown", "") ∧
    evaluateFreshness (some ⟨none, none⟩) = ("unknown", "") :=
  ⟨rfl, rfl⟩

theorem legacyFreshness_fst (ss : List SourceEntry) :
    (legacyFreshness ss).1 =
      if ss.all (fun s => s.status == some "pass") then "ok" else "fail" := by
  unfold legacyFreshness
  cases h : ss.filter (fun s => !(s.status == some "pass")) <;> simp [h]

/-- C6: under the legacy shape the verdict is "ok" exactly when every
source's status is "pass" and "fail" otherwise, and on failure the detail
is the first non-passing source's display name followed by its status. -/
theorem c6_legacy (rsOpt : Option (List SourceEntry)) (ss : List SourceEntry) :
    evaluateFreshness (some ⟨some ss, rsOpt⟩) = legacyFreshness ss ∧
    ((evaluateFreshness (some ⟨some ss, rsOpt⟩)).1 = "ok" ↔
      ∀ s ∈ ss, s.status = some "pass") ∧
    ((¬ ∀ s ∈ ss, s.status = some "pass") →
      (evaluateFreshness (some ⟨some ss, rsOpt⟩)).1 = "fail") ∧
    (∀ fs l, ss.filter (fun s => !(s.status == some "pass")) = fs :: l →
      (evaluateFreshness (some ⟨some ss, rsOpt⟩)).2 =
        pyOr fs.name (pyOr fs.source_name (pyOr fs.unique_id "source"))
          ++ " " ++ pyStrOS fs.status) := by
  have hev : evaluateFreshness (some ⟨some ss, rsOpt⟩) = legacyFreshness ss := rfl
  rw [hev]
  refine ⟨rfl, ?_, ?_, ?_⟩
  · rw [legacyFreshness_fst]
    by_cases h : ss.all (fun s => s.status == some "pass") = true
    · rw [if_pos h]
      simp only [List.all_eq_true, beq_iff_eq] at h
      exact iff_of_true rfl h
    · rw [if_neg h]
      refine iff_of_false (by decide) ?_
      simpa [List.all_eq_true, beq_iff_eq] using h
  · intro hn
    rw [legacyFreshness_fst, if_neg]
    simpa [List.all_eq_true, beq_iff_eq] using hn
  · intro fs l hf
    unfold legacyFreshness
    rw [hf]

/-- Witness for C6: a single source with status "error" yields the "fail"
verdict and the detail "s1 error". -/
theorem c6_legacy_witness :
    (evaluateFreshness
      (some ⟨some [⟨some "error", some "s1", none, none, none⟩], none⟩)).1 = "fail" ∧
    (evaluateFreshness
      (some ⟨some [⟨some "error", some "s1", none, none, none⟩], none⟩)).2 = "s1 error" := by
  have h := c6_legacy none [⟨some "error", some "s1", none, none, none⟩]
  refine ⟨h.2.2.1 ?_, ?_⟩
  · intro hall
    exact absurd (hall ⟨some "error", some "s1", none, none, none⟩
      (List.mem_cons_self _ _)) (by decide)
  · have h4 := h.2.2.2 ⟨some "error", some "s1", none, none, none⟩ [] rfl
    rw [h4]
    decide

/-- C7: under the current shape, entries with an empty status are dropped;
with nothing left the verdict is "unknown"; otherwise the first entry of
maximal severity (error 3, warn 2, pass 1, else 0) decides the verdict:
error to "fail", warn to "amber", pass to "ok", anything else leaves the
default "unknown". -/
theorem c7_current (rs : List SourceEntry) :
    (rs.filter (fun r => truthyS r.status) = [] →
      evaluateFreshness (some ⟨none, some rs⟩) = ("unknown", "")) ∧
    (∀ w l, rs.filter (fun r => truthyS r.status) = w :: l →
      ∃ worst pre suf,
        rs.filter (fun r => truthyS r.status) = pre ++ worst :: suf ∧
        (∀ y ∈ pre, sevOf y < sevOf worst) ∧
        (∀ y ∈ rs.filter (fun r => truthyS r.status), sevOf y ≤ sevOf worst) ∧
        (evaluateFreshness (some ⟨none, some rs⟩)).1 =
          (if statusKey worst = "error" then "fail"
           else if statusKey worst = "warn" then "amber"
           else if statusKey worst = "pass" then "ok"
           else "unknown")) := by
  have hev : evaluateFreshness (some ⟨none, some rs⟩) = currentFreshness rs := rfl
  rw [hev]
  constructor
  · intro h
    unfold currentFreshness
    rw [h]
  · intro w l hf
    obtain ⟨pre, suf, heq, hpre, hall⟩ := pymaxBy_spec sevOf l w
    refine ⟨pymaxBy sevOf w l, pre, suf, ?_, hpre, ?_, ?_⟩
    · rw [hf]; exact heq
    · rw [hf]; exact hall
    · unfold currentFreshness
      rw [hf]

/-- Witness for C7: a single result with status "warn" yields the "amber"
verdict. -/
theorem c7_current_witness :
    (evaluateFreshness
      (some ⟨none, some [⟨some "warn", none, some "src", none, none⟩]⟩)).1 = "amber" := by
  obtain ⟨worst, pre, suf, hdec, -, -, hv⟩ :=
    (c7_current [⟨some "warn", none, some "src", none, none⟩]).2
      ⟨some "warn", none, some "src", none, none⟩ [] rfl
  have hdec2 : [(⟨some "warn", none, some "src", none, none⟩ : SourceEntry)]
      = pre ++ worst :: suf := hdec
  have hw : worst = ⟨some "warn", none, some "src", none, none⟩ := by
    cases pre with
    | nil =>
      simp only [List.nil_append] at hdec2
      injection hdec2 with h1 h2
      exact h1.symm
    | cons p pre' =>
      rw [List.cons_append] at hdec2
      injection hdec2 with h1 h2
      simp at h2
  rw [hv, hw]
  decide

theorem parse_status_color_reason (run : Run) (rr : Option (List TestResultEntry))
    (sa : Option SourcesJson) :
    ((parse_status run rr sa).color = "green" ∨
     (parse_status run rr sa).color = "amber" ∨
     (parse_status run rr sa).color = "red") ∧
    (parse_status run rr sa).reason ≠ "" := by
  unfold parse_status
  dsimp only
  split_ifs with h1 h2 h3 h4
  · exact ⟨Or.inr (Or.inl rfl), by decide⟩
  · exact ⟨Or.inr (Or.inl rfl),
      append_ne_empty_left _ _ (append_ne_empty_left _ _
        (append_ne_empty_left _ _ (by decide)))⟩
  · exact ⟨Or.inl rfl, by decide⟩
  · exact ⟨Or.inr (Or.inr rfl), by decide⟩
  · exact ⟨Or.inr (Or.inl rfl), append_ne_empty_left _ _ (by decide)⟩

/-- C9: every row produced by the aggregation loop, whether or not a run
exists, has one of the four colors grey, green, amber, red and a
non-empty reason. -/
theorem c9_row_invariant (jobMap : String → OptStr) (acct jid : String)
    (rd : Option RunData) :
    ((buildRow jobMap acct jid rd).color = "grey" ∨
     (buildRow jobMap acct jid rd).color = "green" ∨
     (buildRow jobMap acct jid rd).color = "amber" ∨
     (buildRow jobMap acct jid rd).color = "red") ∧
    (buildRow jobMap acct jid rd).reason ≠ "" := by
  cases rd with
  | none =>
    refine ⟨Or.inl rfl, ?_⟩
    show ("no runs" : String) ≠ ""
    decide
  | some rd =>
    have h := parse_status_color_reason rd.run rd.run_results rd.sources_art
    refine ⟨?_, h.2⟩
    rcases h.1 with hc | hc | hc
    · exact Or.inr (Or.inl hc)
    · exact Or.inr (Or.inr (Or.inl hc))
    · exact Or.inr (Or.inr (Or.inr hc))
